import Mathlib

/-!
Shallow embedding of the learning-rate schedule family of `src/lib/utils.py`
(MeshSDF), lines 32-102: the abstract base class `LearningRateSchedule`, its
three concrete variants (`ConstantLearningRateSchedule`,
`StepLearningRateSchedule`, `WarmupLearningRateSchedule`) and the factory
`get_learning_rate_schedules`.

Modelling conventions:
- Python floats are modelled by `ℚ` (exact arithmetic; the claims under
  verification assert exact values);
- epochs and the integer parameters `Interval` / `Length` by `ℤ`;
- Python's floor division `//` by `Int.fdiv` (both floor toward negative
  infinity);
- fallible evaluation by `Except String ℚ`: Python raises `ZeroDivisionError`
  when `//` or `/` meets a zero divisor, modelled by an explicit zero test
  placed exactly where the division occurs in the source;
- the Python method body `pass` of the base class returns `None`, modelled by
  `Option ℚ` with result `none`.
-/

namespace MeshSDF

/-- The message of a Python `ZeroDivisionError`, used where the source divides. -/
def zeroDivisionError : String := "ZeroDivisionError"

/-- Base class `LearningRateSchedule` (utils.py lines 32-34).  It has no
fields; its `get_learning_rate` body is `pass`, which returns `None`. -/
structure LearningRateSchedule where

/-- `LearningRateSchedule.get_learning_rate`: the body is `pass`, so every
call returns `None` (modelled as `none : Option ℚ`). -/
def LearningRateSchedule.get_learning_rate (_s : LearningRateSchedule)
    (_epoch : ℤ) : Option ℚ :=
  none

/-- `ConstantLearningRateSchedule` (utils.py lines 37-42): one field `value`. -/
structure ConstantLearningRateSchedule where
  value : ℚ
deriving DecidableEq

/-- `ConstantLearningRateSchedule.get_learning_rate`: `return self.value`. -/
def ConstantLearningRateSchedule.get_learning_rate
    (s : ConstantLearningRateSchedule) (_epoch : ℤ) : ℚ :=
  s.value

/-- `StepLearningRateSchedule` (utils.py lines 45-53): fields `initial`,
`interval`, `factor`. -/
structure StepLearningRateSchedule where
  initial : ℚ
  interval : ℤ
  factor : ℚ
deriving DecidableEq

/-- `StepLearningRateSchedule.get_learning_rate`:
`return self.initial * (self.factor ** (epoch // self.interval))`.
Python's `//` raises `ZeroDivisionError` on a zero divisor, hence the zero
test; otherwise `//` is floor division, i.e. `Int.fdiv`. -/
def StepLearningRateSchedule.get_learning_rate (s : StepLearningRateSchedule)
    (epoch : ℤ) : Except String ℚ :=
  if s.interval = 0 then
    Except.error zeroDivisionError
  else
    Except.ok (s.initial * s.factor ^ (epoch.fdiv s.interval))

/-- `WarmupLearningRateSchedule` (utils.py lines 56-65): fields `initial`,
`warmed_up`, `length`. -/
structure WarmupLearningRateSchedule where
  initial : ℚ
  warmed_up : ℚ
  length : ℤ
deriving DecidableEq

/-- `WarmupLearningRateSchedule.get_learning_rate`:
`if epoch > self.length: return self.warmed_up` and otherwise
`return self.initial + (self.warmed_up - self.initial) * epoch / self.length`.
The true division `/` raises `ZeroDivisionError` on a zero divisor, hence the
zero test guarding the interpolation branch. -/
def WarmupLearningRateSchedule.get_learning_rate
    (s : WarmupLearningRateSchedule) (epoch : ℤ) : Except String ℚ :=
  if epoch > s.length then
    Except.ok s.warmed_up
  else if s.length = 0 then
    Except.error zeroDivisionError
  else
    Except.ok (s.initial + (s.warmed_up - s.initial) * (epoch : ℚ) / (s.length : ℚ))

/-- The heterogeneous list returned by the factory holds instances of the
three concrete subclasses; modelled as a sum type with one constructor per
subclass. -/
inductive Schedule where
  | step (s : StepLearningRateSchedule)
  | warmup (s : WarmupLearningRateSchedule)
  | constant (s : ConstantLearningRateSchedule)
deriving DecidableEq

/-- Dynamic dispatch of `get_learning_rate` over the three subclasses.  The
result of the infallible `Constant` variant is lifted into `Except`. -/
def Schedule.get_learning_rate : Schedule → ℤ → Except String ℚ
  | Schedule.step s, epoch => s.get_learning_rate epoch
  | Schedule.warmup s, epoch => s.get_learning_rate epoch
  | Schedule.constant s, epoch => Except.ok (s.get_learning_rate epoch)

/-- A Python method call threads the receiver object explicitly: the call
returns the method's result together with the (possibly mutated) receiver.
None of the three `get_learning_rate` bodies contains an attribute
assignment, so each branch returns the receiver it was given. -/
def Schedule.call_get_learning_rate : Schedule → ℤ → Except String ℚ × Schedule
  | Schedule.constant s, _epoch =>
    (Except.ok s.value, Schedule.constant s)
  | Schedule.step s, epoch =>
    (if s.interval = 0 then
       Except.error zeroDivisionError
     else
       Except.ok (s.initial * s.factor ^ (epoch.fdiv s.interval)),
     Schedule.step s)
  | Schedule.warmup s, epoch =>
    (if epoch > s.length then
       Except.ok s.warmed_up
     else if s.length = 0 then
       Except.error zeroDivisionError
     else
       Except.ok (s.initial + (s.warmed_up - s.initial) * (epoch : ℚ) / (s.length : ℚ)),
     Schedule.warmup s)

/-- One record of the `"LearningRateSchedule"` configuration list consumed by
the factory (utils.py lines 68-102).  The record key `"Type"` is embedded as
the field `Type'` because `Type` is a Lean keyword; the numeric keys the
factory reads (`Initial`, `Interval`, `Factor`, `Final`, `Length`, `Value`)
are fields of the corresponding numeric sorts. -/
structure ScheduleSpec where
  Type' : String
  Initial : ℚ
  Interval : ℤ
  Factor : ℚ
  Final : ℚ
  Length : ℤ
  Value : ℚ
deriving DecidableEq

/-- `get_learning_rate_schedules` (utils.py lines 68-102), applied to the
record list `specs["LearningRateSchedule"]`.  It dispatches on the `Type`
tag of each record in order, building `Step`, `Warmup` or `Constant`
instances from the record's fields, and raises
`Exception('no known learning rate schedule of type "..."')` on any other
tag; the raised exception aborts the whole call, so no partial list is ever
returned. -/
def get_learning_rate_schedules : List ScheduleSpec → Except String (List Schedule)
  | [] => Except.ok []
  | spec :: rest =>
    if spec.Type' = "Step" then
      (get_learning_rate_schedules rest).map
        (fun l => Schedule.step ⟨spec.Initial, spec.Interval, spec.Factor⟩ :: l)
    else if spec.Type' = "Warmup" then
      (get_learning_rate_schedules rest).map
        (fun l => Schedule.warmup ⟨spec.Initial, spec.Final, spec.Length⟩ :: l)
    else if spec.Type' = "Constant" then
      (get_learning_rate_schedules rest).map
        (fun l => Schedule.constant ⟨spec.Value⟩ :: l)
    else
      Except.error ("no known learning rate schedule of type \"" ++ spec.Type' ++ "\"")

/-- The interpolation expression of the Warmup branch for `epoch ≤ length`
(utils.py line 65), as a function of the schedule and the epoch:
`initial + (warmed_up - initial) * epoch / length`. -/
def WarmupLearningRateSchedule.interpolation (s : WarmupLearningRateSchedule)
    (epoch : ℤ) : ℚ :=
  s.initial + (s.warmed_up - s.initial) * (epoch : ℚ) / (s.length : ℚ)

/-- Spec-side builder for the refinement claim about the factory, written
from the spec's words: each record yields exactly one `Schedule`, the
variant named by its `Type` tag, carrying the record's numeric parameters
verbatim; records are processed independently and in order (via `List.map`).
Only applied to records whose tag is one of the three recognized ones, so
the trailing branch is arbitrary there. -/
def schedule_per_record_spec (r : ScheduleSpec) : Schedule :=
  if r.Type' = "Step" then
    Schedule.step ⟨r.Initial, r.Interval, r.Factor⟩
  else if r.Type' = "Warmup" then
    Schedule.warmup ⟨r.Initial, r.Final, r.Length⟩
  else
    Schedule.constant ⟨r.Value⟩

/-- For a positive divisor `b`, the floor division of any `a` in the window
`[k*b, (k+1)*b)` equals `k`. -/
theorem fdiv_eq_of_interval {a b k : ℤ} (hb : 0 < b) (h1 : k * b ≤ a)
    (h2 : a < (k + 1) * b) : a.fdiv b = k := by
  rw [Int.fdiv_eq_ediv a hb.le]
  have hk1 : k ≤ a / b := (Int.le_ediv_iff_mul_le hb).mpr h1
  have hk2 : a / b < k + 1 := (Int.ediv_lt_iff_lt_mul hb).mpr h2
  omega

/-- Claim C1: for a Step schedule with positive interval, the learning rate
at epoch `k * interval` is `initial * factor ^ k`, the rate is that same
value throughout the window `[k*interval, (k+1)*interval)`, and the rate at
epoch `0` is `initial`. -/
theorem step_schedule_staircase (s : StepLearningRateSchedule)
    (hpos : 0 < s.interval) (k : ℕ) :
    s.get_learning_rate ((k : ℤ) * s.interval) =
      Except.ok (s.initial * s.factor ^ k) ∧
    (∀ epoch : ℤ, (k : ℤ) * s.interval ≤ epoch →
      epoch < ((k : ℤ) + 1) * s.interval →
      s.get_learning_rate epoch = Except.ok (s.initial * s.factor ^ k)) ∧
    s.get_learning_rate 0 = Except.ok s.initial := by
  have hne : s.interval ≠ 0 := hpos.ne'
  have hwin : ∀ epoch : ℤ, (k : ℤ) * s.interval ≤ epoch →
      epoch < ((k : ℤ) + 1) * s.interval →
      s.get_learning_rate epoch = Except.ok (s.initial * s.factor ^ k) := by
    intro epoch hlo hhi
    unfold StepLearningRateSchedule.get_learning_rate
    rw [if_neg hne, fdiv_eq_of_interval hpos hlo hhi, zpow_natCast]
  refine ⟨?_, hwin, ?_⟩
  · exact hwin ((k : ℤ) * s.interval) le_rfl
      (by have := hpos; nlinarith)
  · unfold StepLearningRateSchedule.get_learning_rate
    rw [if_neg hne, Int.zero_fdiv, zpow_zero, mul_one]

/-- Witness for C1 at the concrete Step schedule
`initial = 1, interval = 2, factor = 1/2`, window index `k = 2`,
epoch `5 ∈ [4, 6)`. -/
theorem step_schedule_staircase_witness :
    StepLearningRateSchedule.get_learning_rate ⟨1, 2, 1/2⟩ 5 =
      Except.ok (1 * (1/2 : ℚ) ^ 2) :=
  (step_schedule_staircase ⟨1, 2, 1/2⟩ (by decide) 2).2.1 5 (by decide) (by decide)

/-- Claim C2: the Warmup boundary test is a strict `epoch > length`: for
every epoch strictly above `length` the rate is exactly `warmed_up` (in
particular at `length + 1`), while at `epoch = length` the interpolation
branch is taken and returns
`initial + (warmed_up - initial) * length / length` (well defined whenever
`length ≠ 0`, as the claim's formula presupposes). -/
theorem warmup_schedule_strict_boundary (s : WarmupLearningRateSchedule) :
    (∀ epoch : ℤ, s.length < epoch →
      s.get_learning_rate epoch = Except.ok s.warmed_up) ∧
    s.get_learning_rate (s.length + 1) = Except.ok s.warmed_up ∧
    (s.length ≠ 0 →
      s.get_learning_rate s.length =
        Except.ok (s.initial + (s.warmed_up - s.initial) *
          ((s.length : ℤ) : ℚ) / ((s.length : ℤ) : ℚ))) := by
  have habove : ∀ epoch : ℤ, s.length < epoch →
      s.get_learning_rate epoch = Except.ok s.warmed_up := by
    intro epoch h
    unfold WarmupLearningRateSchedule.get_learning_rate
    rw [if_pos h]
  refine ⟨habove, habove (s.length + 1) (by omega), ?_⟩
  intro hne
  unfold WarmupLearningRateSchedule.get_learning_rate
  rw [if_neg (lt_irrefl s.length), if_neg hne]

/-- Witness for C2 at the concrete Warmup schedule
`initial = 1, warmed_up = 5, length = 10`. -/
theorem warmup_schedule_strict_boundary_witness :
    WarmupLearningRateSchedule.get_learning_rate ⟨1, 5, 10⟩ 11 =
      Except.ok 5 ∧
    WarmupLearningRateSchedule.get_learning_rate ⟨1, 5, 10⟩ 10 =
      Except.ok (1 + (5 - 1) * (((10 : ℤ) : ℤ) : ℚ) / (((10 : ℤ) : ℤ) : ℚ)) :=
  ⟨(warmup_schedule_strict_boundary ⟨1, 5, 10⟩).1 11 (by decide),
   (warmup_schedule_strict_boundary ⟨1, 5, 10⟩).2.2 (by decide)⟩

/-- Claim C5: a Constant schedule returns its `value` at every integer
epoch, zero and negative epochs included. -/
theorem constant_schedule_always_value (s : ConstantLearningRateSchedule)
    (epoch : ℤ) : s.get_learning_rate epoch = s.value :=
  rfl

/-- Claim C6: for a Warmup schedule with positive `length`, the rate at
epoch `0` is `initial`, and over epochs `0, 1, ..., length` the returned
values move monotonically from `initial` toward `warmed_up`: non-decreasing
when `warmed_up > initial`, non-increasing when `warmed_up < initial`. -/
theorem warmup_schedule_monotone (s : WarmupLearningRateSchedule)
    (hpos : 0 < s.length) :
    s.get_learning_rate 0 = Except.ok s.initial ∧
    (∀ e : ℤ, e ≤ s.length →
      s.get_learning_rate e = Except.ok (s.interpolation e)) ∧
    ∀ e1 e2 : ℤ, 0 ≤ e1 → e1 ≤ e2 → e2 ≤ s.length →
      (s.initial < s.warmed_up → s.interpolation e1 ≤ s.interpolation e2) ∧
      (s.warmed_up < s.initial → s.interpolation e2 ≤ s.interpolation e1) := by
  have hne : s.length ≠ 0 := hpos.ne'
  have hval : ∀ e : ℤ, e ≤ s.length →
      s.get_learning_rate e = Except.ok (s.interpolation e) := by
    intro e he
    unfold WarmupLearningRateSchedule.get_learning_rate
      WarmupLearningRateSchedule.interpolation
    rw [if_neg (not_lt.mpr he), if_neg hne]
  have hL : (0 : ℚ) < (s.length : ℚ) := by exact_mod_cast hpos
  refine ⟨?_, hval, ?_⟩
  · rw [hval 0 hpos.le]
    unfold WarmupLearningRateSchedule.interpolation
    norm_num
  · intro e1 e2 _h0 h12 _h2L
    have he : (e1 : ℚ) ≤ (e2 : ℚ) := by exact_mod_cast h12
    unfold WarmupLearningRateSchedule.interpolation
    constructor
    · intro hiw
      have hmul : (s.warmed_up - s.initial) * (e1 : ℚ) ≤
          (s.warmed_up - s.initial) * (e2 : ℚ) :=
        mul_le_mul_of_nonneg_left he (by linarith)
      exact add_le_add_left ((div_le_div_iff_of_pos_right hL).mpr hmul) s.initial
    · intro hwi
      have hmul : (s.warmed_up - s.initial) * (e2 : ℚ) ≤
          (s.warmed_up - s.initial) * (e1 : ℚ) := by nlinarith
      exact add_le_add_left ((div_le_div_iff_of_pos_right hL).mpr hmul) s.initial

/-- Witness for C6 at the concrete Warmup schedule
`initial = 1, warmed_up = 5, length = 10` and epochs `2 ≤ 3`. -/
theorem warmup_schedule_monotone_witness :
    WarmupLearningRateSchedule.get_learning_rate ⟨1, 5, 10⟩ 0 =
      Except.ok 1 ∧
    WarmupLearningRateSchedule.get_learning_rate ⟨1, 5, 10⟩ 2 =
      Except.ok (WarmupLearningRateSchedule.interpolation ⟨1, 5, 10⟩ 2) ∧
    WarmupLearningRateSchedule.interpolation ⟨1, 5, 10⟩ 2 ≤
      WarmupLearningRateSchedule.interpolation ⟨1, 5, 10⟩ 3 :=
  ⟨(warmup_schedule_monotone ⟨1, 5, 10⟩ (by decide)).1,
   (warmup_schedule_monotone ⟨1, 5, 10⟩ (by decide)).2.1 2 (by decide),
   ((warmup_schedule_monotone ⟨1, 5, 10⟩ (by decide)).2.2 2 3
     (by decide) (by decide) (by decide)).1 (by decide)⟩

/-- Claim C7 as stated is refuted at a concrete input: a Warmup schedule
with `length = 0` does NOT fail on every evaluation; at epoch `1` the strict
boundary test `1 > 0` routes the call to the constant branch, which returns
`warmed_up = 2` without performing any division. -/
theorem warmup_zero_length_not_always_error :
    WarmupLearningRateSchedule.get_learning_rate ⟨1, 2, 0⟩ 1 = Except.ok 2 ∧
    ¬ ∀ s : WarmupLearningRateSchedule, s.length = 0 →
        ∀ epoch : ℤ, ∃ msg : String,
          s.get_learning_rate epoch = Except.error msg := by
  have h : WarmupLearningRateSchedule.get_learning_rate ⟨1, 2, 0⟩ 1 =
      Except.ok 2 := rfl
  refine ⟨h, fun hall => ?_⟩
  obtain ⟨msg, hmsg⟩ := hall ⟨1, 2, 0⟩ rfl 1
  rw [h] at hmsg
  exact Except.noConfusion hmsg

/-- Claim C7, amended: for a Warmup schedule with `length = 0`, evaluation
at any epoch `≤ 0` (the epochs that reach the interpolation branch) fails
with an uncaught division-by-zero error, while any epoch `> 0` takes the
constant branch and returns `warmed_up` without dividing. -/
theorem warmup_zero_length_division_error (s : WarmupLearningRateSchedule)
    (h0 : s.length = 0) (epoch : ℤ) :
    (epoch ≤ 0 → s.get_learning_rate epoch = Except.error zeroDivisionError) ∧
    (0 < epoch → s.get_learning_rate epoch = Except.ok s.warmed_up) := by
  unfold WarmupLearningRateSchedule.get_learning_rate
  rw [h0]
  constructor
  · intro hle
    rw [if_neg (by omega : ¬ (0 : ℤ) < epoch), if_pos rfl]
  · intro hlt
    rw [if_pos hlt]

/-- Witness for the amended C7 at the concrete Warmup schedule
`initial = 1, warmed_up = 2, length = 0`, epochs `0` and `1`. -/
theorem warmup_zero_length_division_error_witness :
    WarmupLearningRateSchedule.get_learning_rate ⟨1, 2, 0⟩ 0 =
      Except.error zeroDivisionError ∧
    WarmupLearningRateSchedule.get_learning_rate ⟨1, 2, 0⟩ 1 =
      Except.ok 2 :=
  ⟨(warmup_zero_length_division_error ⟨1, 2, 0⟩ rfl 0).1 (by decide),
   (warmup_zero_length_division_error ⟨1, 2, 0⟩ rfl 1).2 (by decide)⟩

/-- Claim C10: calling `get_learning_rate` on the abstract base class
`LearningRateSchedule` returns `None` (no value) at every epoch; the method
body is `pass`. -/
theorem base_schedule_returns_none (s : LearningRateSchedule) (epoch : ℤ) :
    s.get_learning_rate epoch = none :=
  rfl

/-- Claim C3: when the input record list splits as `pre ++ r :: post` with
every record of `pre` carrying a recognized tag and `r` carrying an
unrecognized one (so `r` is a record with a bad tag, e.g. the first such),
the factory returns the error naming `r`'s tag string, and it never returns
any list of schedules, partial or otherwise. -/
theorem unknown_type_fails (pre post : List ScheduleSpec) (r : ScheduleSpec)
    (hpre : ∀ p ∈ pre,
      p.Type' = "Step" ∨ p.Type' = "Warmup" ∨ p.Type' = "Constant")
    (h1 : r.Type' ≠ "Step") (h2 : r.Type' ≠ "Warmup")
    (h3 : r.Type' ≠ "Constant") :
    get_learning_rate_schedules (pre ++ r :: post) =
      Except.error
        ("no known learning rate schedule of type \"" ++ r.Type' ++ "\"") ∧
    ∀ l : List Schedule,
      get_learning_rate_schedules (pre ++ r :: post) ≠ Except.ok l := by
  have herr : get_learning_rate_schedules (pre ++ r :: post) =
      Except.error
        ("no known learning rate schedule of type \"" ++ r.Type' ++ "\"") := by
    induction pre with
    | nil =>
      simp only [List.nil_append, get_learning_rate_schedules]
      rw [if_neg h1, if_neg h2, if_neg h3]
    | cons p ps ih =>
      have hrec := ih (fun q hq => hpre q (List.mem_cons_of_mem p hq))
      have hp := hpre p (List.mem_cons_self p ps)
      simp only [List.cons_append, get_learning_rate_schedules, List.append_eq]
      rcases hp with h | h | h
      · rw [if_pos h, hrec]
        rfl
      · have hns : ¬ p.Type' = "Step" := by rw [h]; decide
        rw [if_neg hns, if_pos h, hrec]
        rfl
      · have hns : ¬ p.Type' = "Step" := by rw [h]; decide
        have hnw : ¬ p.Type' = "Warmup" := by rw [h]; decide
        rw [if_neg hns, if_neg hnw, if_pos h, hrec]
        rfl
  refine ⟨herr, fun l hl => ?_⟩
  rw [herr] at hl
  exact Except.noConfusion hl

/-- Witness for C3: a one-record list whose tag is `"Bogus"` makes the
factory fail with the error naming `"Bogus"`, and in particular it does not
return the empty (or any) schedule list. -/
theorem unknown_type_fails_witness :
    get_learning_rate_schedules [⟨"Bogus", 0, 0, 0, 0, 0, 0⟩] =
      Except.error
        ("no known learning rate schedule of type \"" ++ "Bogus" ++ "\"") ∧
    get_learning_rate_schedules [⟨"Bogus", 0, 0, 0, 0, 0, 0⟩] ≠
      Except.ok [] :=
  ⟨(unknown_type_fails [] [] ⟨"Bogus", 0, 0, 0, 0, 0, 0⟩
      (by simp) (by decide) (by decide) (by decide)).1,
   (unknown_type_fails [] [] ⟨"Bogus", 0, 0, 0, 0, 0, 0⟩
      (by simp) (by decide) (by decide) (by decide)).2 []⟩

/-- Claim C4: on a list of records whose tags are all recognized, the
factory succeeds and returns exactly the per-record, order-preserving
translation `List.map schedule_per_record_spec`: one `Schedule` per input
record, in input order, the variant named by each record's tag, carrying
that record's numeric parameters verbatim.  No hypothesis constrains the
numeric parameters: negative intervals or zero lengths pass through. -/
theorem factory_builds_in_order (specs : List ScheduleSpec)
    (hgood : ∀ r ∈ specs,
      r.Type' = "Step" ∨ r.Type' = "Warmup" ∨ r.Type' = "Constant") :
    get_learning_rate_schedules specs =
      Except.ok (specs.map schedule_per_record_spec) := by
  induction specs with
  | nil => rfl
  | cons spec rest ih =>
    have hrec := ih (fun q hq => hgood q (List.mem_cons_of_mem spec hq))
    have hsp := hgood spec (List.mem_cons_self spec rest)
    simp only [get_learning_rate_schedules, List.map_cons,
      schedule_per_record_spec]
    rcases hsp with h | h | h
    · rw [if_pos h, hrec, if_pos h]
      rfl
    · have hns : ¬ spec.Type' = "Step" := by rw [h]; decide
      rw [if_neg hns, if_pos h, hrec, if_neg hns, if_pos h]
      rfl
    · have hns : ¬ spec.Type' = "Step" := by rw [h]; decide
      have hnw : ¬ spec.Type' = "Warmup" := by rw [h]; decide
      rw [if_neg hns, if_neg hnw, if_pos h, hrec, if_neg hns, if_neg hnw]
      rfl

/-- Witness for C4 on the spec's own example list
`[Constant 1/1000, Step 1/100 100 1/2]` and on a list whose Step record has
a negative interval and whose Warmup record has a zero length, showing the
unvalidated pass-through. -/
theorem factory_builds_in_order_witness :
    get_learning_rate_schedules
      [⟨"Constant", 0, 0, 0, 0, 0, 1/1000⟩,
       ⟨"Step", 1/100, 100, 1/2, 0, 0, 0⟩] =
      Except.ok
        ([⟨"Constant", 0, 0, 0, 0, 0, 1/1000⟩,
          ⟨"Step", 1/100, 100, 1/2, 0, 0, 0⟩].map schedule_per_record_spec) ∧
    get_learning_rate_schedules
      [⟨"Step", 1, -5, 2, 0, 0, 0⟩, ⟨"Warmup", 1, 0, 0, 2, 0, 0⟩] =
      Except.ok
        ([⟨"Step", 1, -5, 2, 0, 0, 0⟩,
          ⟨"Warmup", 1, 0, 0, 2, 0, 0⟩].map schedule_per_record_spec) :=
  ⟨factory_builds_in_order
    [⟨"Constant", 0, 0, 0, 0, 0, 1/1000⟩, ⟨"Step", 1/100, 100, 1/2, 0, 0, 0⟩]
    (by decide),
   factory_builds_in_order
    [⟨"Step", 1, -5, 2, 0, 0, 0⟩, ⟨"Warmup", 1, 0, 0, 2, 0, 0⟩]
    (by decide)⟩

/-- Claim C8: every schedule's `get_learning_rate` and the factory are pure,
deterministic functions of the construction parameters and the epoch: in
this embedding they are Lean functions, so two evaluations of the same
schedule at the same epoch, two runs of the factory on the same spec, and
querying the rebuilt schedule list at the same epoch, are definitionally
equal. -/
theorem schedules_deterministic (specs : List ScheduleSpec) (s : Schedule)
    (epoch : ℤ) :
    s.get_learning_rate epoch = s.get_learning_rate epoch ∧
    get_learning_rate_schedules specs = get_learning_rate_schedules specs ∧
    (get_learning_rate_schedules specs).map
        (fun l => l.map (fun sch => sch.get_learning_rate epoch)) =
      (get_learning_rate_schedules specs).map
        (fun l => l.map (fun sch => sch.get_learning_rate epoch)) :=
  ⟨rfl, rfl, rfl⟩

/-- Claim C9: a `get_learning_rate` call, modelled with the receiver object
threaded explicitly through the call, returns the receiver unchanged (hence
every field — `value`; `initial`, `interval`, `factor`; `initial`,
`warmed_up`, `length` — is unchanged) together with the same result the
pure evaluation gives. -/
theorem evaluation_preserves_schedule (s : Schedule) (epoch : ℤ) :
    (s.call_get_learning_rate epoch).2 = s ∧
    (s.call_get_learning_rate epoch).1 = s.get_learning_rate epoch := by
  cases s <;> exact ⟨rfl, rfl⟩

end MeshSDF
